import Mathlib

/-!
# Verification of `akita_fastapi.testclient`

A shallow embedding of `src/akita_fastapi/testclient.py`: the pure HAR-entry
builder `requests_to_har_entry` and the recording `TestClient.request`
wrapper, together with models of the Python standard-library routines the
source calls (`urllib.parse.urlsplit`, `urllib.parse.parse_qs`,
`urllib.parse.urlunparse`, `urllib.parse.urljoin`, `bytes.decode("utf-7")`,
`str.encode("utf-8")`).

Machine strings are Lean `String`s (Python `str`, sequences of code points);
byte strings (Python `bytes`) are `List Nat` with entries < 256.  Fallible
Python code (raising exceptions) is modelled with `Except PyError`.
The wall clock is passed explicitly (microseconds since the epoch).
-/

/-- A Python exception, as far as the source distinguishes them. -/
inductive PyError where
  | valueError (msg : String)
  | keyError (key : String)
  | unicodeDecodeError
  | typeError
  | connectionError
  deriving Repr, DecidableEq

/-- A `datetime.datetime`: an absolute instant (microseconds since epoch,
as measured in UTC) plus an optional tzinfo (modelled as a UTC offset in
minutes; the source only tests for its presence). -/
structure PyDatetime where
  usec : Int
  tzinfo : Option Int
  deriving Repr, DecidableEq

/- ## `str.encode("utf-8")` byte length

Python's `len(s.encode("utf-8"))` is the UTF-8 byte size of the string,
which is exactly Lean's `String.utf8ByteSize`. -/

/- ## Percent decoding: `urllib.parse.unquote_plus`

`unquote_plus` replaces `+` by a space and percent-decodes: each maximal run
of `%XX` hex escapes is decoded as UTF-8 with `errors='replace'`
(U+FFFD for invalid sequences); a `%` not followed by two hex digits is
kept literally. -/

/-- Value of a hexadecimal digit character, as accepted by
`urllib.parse._hextobyte` (both cases). -/
def hexDigitVal (c : Char) : Option Nat :=
  if '0' ≤ c ∧ c ≤ '9' then some (c.toNat - 48)
  else if 'a' ≤ c ∧ c ≤ 'f' then some (c.toNat - 87)
  else if 'A' ≤ c ∧ c ≤ 'F' then some (c.toNat - 55)
  else none

/-- Consume a maximal run of `%XX` escapes, returning the decoded bytes and
the remaining characters. -/
def pctByteRun : List Char → List Nat × List Char
  | '%' :: c1 :: c2 :: rest =>
    match hexDigitVal c1, hexDigitVal c2 with
    | some h1, some h2 =>
      let r := pctByteRun rest
      ((16 * h1 + h2) :: r.1, r.2)
    | _, _ => ([], '%' :: c1 :: c2 :: rest)
  | l => ([], l)

/-- Is a UTF-8 continuation byte (`0x80`–`0xBF`). -/
def isContByte (b : Nat) : Bool := 0x80 ≤ b ∧ b ≤ 0xBF

/-- The U+FFFD replacement character. -/
def replChar : Char := Char.ofNat 0xFFFD

/-- Decode one UTF-8 sequence starting at byte `b`, with `errors='replace'`
semantics: an invalid or truncated sequence yields U+FFFD for its maximal
valid subpart.  Returns the decoded character and the unconsumed bytes. -/
def utf8Step (b : Nat) (rest : List Nat) : Char × List Nat :=
  if b < 0x80 then (Char.ofNat b, rest)
  else if b < 0xC2 then (replChar, rest)
  else if b < 0xE0 then
    match rest with
    | b2 :: r2 =>
      if isContByte b2 then (Char.ofNat ((b - 0xC0) * 64 + (b2 - 0x80)), r2)
      else (replChar, rest)
    | [] => (replChar, [])
  else if b < 0xF0 then
    let lo2 := if b = 0xE0 then 0xA0 else 0x80
    let hi2 := if b = 0xED then 0x9F else 0xBF
    match rest with
    | b2 :: r2 =>
      if lo2 ≤ b2 ∧ b2 ≤ hi2 then
        match r2 with
        | b3 :: r3 =>
          if isContByte b3 then
            (Char.ofNat ((b - 0xE0) * 4096 + (b2 - 0x80) * 64 + (b3 - 0x80)), r3)
          else (replChar, r2)
        | [] => (replChar, [])
      else (replChar, rest)
    | [] => (replChar, [])
  else if b < 0xF5 then
    let lo2 := if b = 0xF0 then 0x90 else 0x80
    let hi2 := if b = 0xF4 then 0x8F else 0xBF
    match rest with
    | b2 :: r2 =>
      if lo2 ≤ b2 ∧ b2 ≤ hi2 then
        match r2 with
        | b3 :: r3 =>
          if isContByte b3 then
            match r3 with
            | b4 :: r4 =>
              if isContByte b4 then
                (Char.ofNat ((b - 0xF0) * 0x40000 + (b2 - 0x80) * 4096 +
                  (b3 - 0x80) * 64 + (b4 - 0x80)), r4)
              else (replChar, r3)
            | [] => (replChar, [])
          else (replChar, r2)
        | [] => (replChar, [])
      else (replChar, rest)
    | [] => (replChar, [])
  else (replChar, rest)

/-- Decode a byte string as UTF-8 with `errors='replace'` (fuelled; each
step consumes at least one byte, so fuel = length suffices). -/
def utf8DecodeReplaceAux : Nat → List Nat → List Char
  | 0, _ => []
  | _, [] => []
  | fuel + 1, b :: rest =>
    let s := utf8Step b rest
    s.1 :: utf8DecodeReplaceAux fuel s.2

/-- `bytes.decode("utf-8", errors="replace")`. -/
def utf8DecodeReplace (l : List Nat) : List Char := utf8DecodeReplaceAux l.length l

/-- Core of `urllib.parse.unquote` (with `encoding='utf-8'`,
`errors='replace'`): characters pass through, `%XX` runs are byte-decoded. -/
def unquoteAux : Nat → List Char → List Char
  | 0, _ => []
  | _, [] => []
  | fuel + 1, c :: rest =>
    if c = '%' then
      match pctByteRun (c :: rest) with
      | (b :: bs, r) => utf8DecodeReplaceAux (b :: bs).length (b :: bs) ++ unquoteAux fuel r
      | ([], _) => c :: unquoteAux fuel rest
    else c :: unquoteAux fuel rest

/-- `urllib.parse.unquote` on a character list. -/
def unquoteL (l : List Char) : List Char := unquoteAux l.length l

/-- `str.replace('+', ' ')`. -/
def plusToSpace (l : List Char) : List Char := l.map fun c => if c = '+' then ' ' else c

/-- `urllib.parse.unquote_plus` (defaults), as applied by `parse_qsl` to
names and values: `+` → space, then percent-decode. -/
def unquotePlus (l : List Char) : List Char := unquoteL (plusToSpace l)

/- ## `urllib.parse.parse_qs` -/

/-- `str.split(sep)` for a one-character separator. -/
def splitChar (sep : Char) : List Char → List (List Char)
  | [] => [[]]
  | c :: rest =>
    let r := splitChar sep rest
    if c = sep then [] :: r
    else
      match r with
      | h :: t => (c :: h) :: t
      | [] => [[c]]

/-- `urllib.parse.parse_qsl` with default arguments: split on `&`, skip
empty segments, skip segments without `=`, skip empty values
(`keep_blank_values=False`), percent-decode names and values. -/
def parse_qsl (qs : List Char) : List (String × String) :=
  ((splitChar '&' qs).map fun seg =>
    if seg = [] then []
    else
      let name := seg.takeWhile (· ≠ '=')
      match seg.dropWhile (· ≠ '=') with
      | [] => []
      | _ :: v =>
        if v = [] then []
        else [((⟨unquotePlus name⟩ : String), (⟨unquotePlus v⟩ : String))]).flatten

/-- Insertion into the `parse_qs` result dictionary: Python dicts preserve
first-insertion key order and append repeated keys' values in order. -/
def insertQs : List (String × List String) → String → String → List (String × List String)
  | [], k, v => [(k, [v])]
  | (k', vs) :: rest, k, v =>
    if k' = k then (k', vs ++ [v]) :: rest
    else (k', vs) :: insertQs rest k v

/-- `urllib.parse.parse_qs` with default arguments, as an ordered
association list (Python dict iteration order). -/
def parse_qs (qs : List Char) : List (String × List String) :=
  (parse_qsl qs).foldl (fun m kv => insertQs m kv.1 kv.2) []

/- ## `urllib.parse.urlsplit` / `urlunsplit` -/

/-- The result of `urllib.parse.urlsplit`. -/
structure SplitResult where
  scheme : List Char
  netloc : List Char
  path : List Char
  query : List Char
  fragment : List Char
  deriving Repr, DecidableEq

/-- Characters allowed in a URL scheme (`urllib.parse.scheme_chars`). -/
def isSchemeChar (c : Char) : Bool := c.isAlphanum || c = '+' || c = '-' || c = '.'

/-- ASCII lowercasing as `str.lower()` acts on validated scheme characters. -/
def asciiLower (c : Char) : Char :=
  match c with
  | 'A' => 'a' | 'B' => 'b' | 'C' => 'c' | 'D' => 'd' | 'E' => 'e' | 'F' => 'f'
  | 'G' => 'g' | 'H' => 'h' | 'I' => 'i' | 'J' => 'j' | 'K' => 'k' | 'L' => 'l'
  | 'M' => 'm' | 'N' => 'n' | 'O' => 'o' | 'P' => 'p' | 'Q' => 'q' | 'R' => 'r'
  | 'S' => 's' | 'T' => 't' | 'U' => 'u' | 'V' => 'v' | 'W' => 'w' | 'X' => 'x'
  | 'Y' => 'y' | 'Z' => 'z'
  | c => c

/-- ASCII uppercasing as `str.upper()` acts on ASCII method names. -/
def asciiUpper (c : Char) : Char :=
  match c with
  | 'a' => 'A' | 'b' => 'B' | 'c' => 'C' | 'd' => 'D' | 'e' => 'E' | 'f' => 'F'
  | 'g' => 'G' | 'h' => 'H' | 'i' => 'I' | 'j' => 'J' | 'k' => 'K' | 'l' => 'L'
  | 'm' => 'M' | 'n' => 'N' | 'o' => 'O' | 'p' => 'P' | 'q' => 'Q' | 'r' => 'R'
  | 's' => 'S' | 't' => 'T' | 'u' => 'U' | 'v' => 'V' | 'w' => 'W' | 'x' => 'X'
  | 'y' => 'Y' | 'z' => 'Z'
  | c => c

/-- `str.lower()` (on the ASCII strings the source lowercases). -/
def pyLower (s : String) : String := ⟨s.data.map asciiLower⟩

/-- `str.upper()` (on the ASCII strings the source uppercases). -/
def pyUpper (s : String) : String := ⟨s.data.map asciiUpper⟩

/-- `urlsplit` removes tab, CR and LF ("unsafe URL bytes") from the URL. -/
def removeTabsNewlines (l : List Char) : List Char :=
  l.filter fun c => c ≠ '\t' ∧ c ≠ '\r' ∧ c ≠ '\n'

/-- Scheme extraction in `urlsplit`: a valid scheme before the first `:`
(nonempty, leading ASCII letter, scheme chars only) is split off and
lowercased; otherwise the caller-supplied default scheme is used. -/
def schemeSplit (l : List Char) (dscheme : List Char) : List Char × List Char :=
  let pre := l.takeWhile (· ≠ ':')
  match l.dropWhile (· ≠ ':') with
  | [] => (dscheme, l)
  | _ :: rest =>
    if pre ≠ [] ∧ (pre.headD 'a').isAlpha ∧ pre.all isSchemeChar
    then (pre.map asciiLower, rest)
    else (dscheme, l)

/-- Netloc extraction in `urlsplit`: after a leading `//`, the netloc runs
to the first `/`, `?` or `#`; unbalanced brackets raise
`ValueError('Invalid IPv6 URL')`. -/
def netlocSplit (l : List Char) : Except PyError (List Char × List Char) :=
  if l.take 2 = ['/', '/'] then
    let rest := l.drop 2
    let nl := rest.takeWhile fun c => c ≠ '/' ∧ c ≠ '?' ∧ c ≠ '#'
    let rem := rest.dropWhile fun c => c ≠ '/' ∧ c ≠ '?' ∧ c ≠ '#'
    if (nl.contains '[') != (nl.contains ']') then .error (.valueError "Invalid IPv6 URL")
    else .ok (nl, rem)
  else .ok ([], l)

/-- Split off the part after the first occurrence of `c` (used for the
fragment and query components; when `c` is absent the second part is empty,
matching `str.split(c, 1)` guarded by `c in url`). -/
def splitAtChar (c : Char) (l : List Char) : List Char × List Char :=
  (l.takeWhile (· ≠ c), (l.dropWhile (· ≠ c)).tail)

/-- `urllib.parse.urlsplit(url, scheme=dscheme)` (with
`allow_fragments=True`). -/
def urlsplitL (url : List Char) (dscheme : List Char) : Except PyError SplitResult :=
  let url := removeTabsNewlines url
  let s := schemeSplit url dscheme
  match netlocSplit s.2 with
  | .error e => .error e
  | .ok (netloc, rest) =>
    let f := splitAtChar '#' rest
    let q := splitAtChar '?' f.1
    .ok ⟨s.1, netloc, q.1, q.2, f.2⟩

/-- `urllib.parse.urlsplit` on strings, default scheme `''`. -/
def urlsplitE (url : String) (dscheme : String) : Except PyError SplitResult :=
  urlsplitL url.data dscheme.data

/-- `urllib.parse.urlunsplit`. -/
def urlunsplitL (scheme netloc path query fragment : List Char) : List Char :=
  let url := path
  let url :=
    if netloc ≠ [] ∨ url.take 2 = ['/', '/'] then
      '/' :: '/' :: (netloc ++ (if url ≠ [] ∧ url.head? ≠ some '/' then '/' :: url else url))
    else url
  let url := if scheme ≠ [] then scheme ++ ':' :: url else url
  let url := if query ≠ [] then url ++ '?' :: query else url
  if fragment ≠ [] then url ++ '#' :: fragment else url

/- ## `bytes.decode("utf-7")`

CPython's UTF-7 decoder (strict errors, as `prepared.body.decode("utf-7")`
uses): ASCII bytes other than `+` decode directly; `+` starts a base-64
section of UTF-16 code units, ended by `-` (absorbed) or any non-base-64
byte; `+-` is a literal `+`; partial characters, non-zero padding bits,
unterminated sections with ≥ 6 pending bits, and bytes ≥ 0x80 are errors.
Surrogate pairs combine to one code point; a lone surrogate is modelled as
an error.  Errors are `none`. -/

/-- Base-64 alphabet value of a byte. -/
def b64val (b : Nat) : Option Nat :=
  if 65 ≤ b ∧ b ≤ 90 then some (b - 65)
  else if 97 ≤ b ∧ b ≤ 122 then some (b - 71)
  else if 48 ≤ b ∧ b ≤ 57 then some (b + 4)
  else if b = 43 then some 62
  else if b = 47 then some 63
  else none

/-- Decoder mode: direct, or inside a base-64 section with pending bits and
an optional pending high surrogate. -/
inductive U7Mode where
  | direct : U7Mode
  | shift (buf bits : Nat) (surr : Option Nat) : U7Mode

/-- Fuelled UTF-7 decoding loop (each step consumes at least one byte, so
fuel = length + 1 suffices). -/
def utf7Aux : Nat → List Nat → U7Mode → Option (List Char)
  | 0, _, _ => none
  | _ + 1, [], .direct => some []
  | _ + 1, [], .shift buf bits surr =>
    if surr.isSome ∨ bits ≥ 6 ∨ (bits > 0 ∧ buf ≠ 0) then none else some []
  | fuel + 1, b :: rest, .direct =>
    if b = 43 then
      match rest with
      | 45 :: rest2 => (utf7Aux fuel rest2 .direct).map fun l => '+' :: l
      | _ => utf7Aux fuel rest (.shift 0 0 none)
    else if b < 128 then (utf7Aux fuel rest .direct).map fun l => Char.ofNat b :: l
    else none
  | fuel + 1, b :: rest, .shift buf bits surr =>
    match b64val b with
    | some v =>
      let buf' := buf * 64 + v
      let bits' := bits + 6
      if bits' ≥ 16 then
        let u := (buf' >>> (bits' - 16)) &&& 0xFFFF
        let buf'' := buf' % 2 ^ (bits' - 16)
        let bits'' := bits' - 16
        match surr with
        | some hi =>
          if 0xDC00 ≤ u ∧ u ≤ 0xDFFF then
            (utf7Aux fuel rest (.shift buf'' bits'' none)).map fun l =>
              Char.ofNat (0x10000 + (hi - 0xD800) * 0x400 + (u - 0xDC00)) :: l
          else none
        | none =>
          if 0xD800 ≤ u ∧ u ≤ 0xDBFF then utf7Aux fuel rest (.shift buf'' bits'' (some u))
          else if 0xDC00 ≤ u ∧ u ≤ 0xDFFF then none
          else (utf7Aux fuel rest (.shift buf'' bits'' none)).map fun l => Char.ofNat u :: l
      else utf7Aux fuel rest (.shift buf' bits' surr)
    | none =>
      if surr.isSome then none
      else if bits ≥ 6 then none
      else if bits > 0 ∧ buf ≠ 0 then none
      else if b = 45 then utf7Aux fuel rest .direct
      else if b < 128 then (utf7Aux fuel rest .direct).map fun l => Char.ofNat b :: l
      else none

/-- `bytes.decode("utf-7")`: `none` models a `UnicodeDecodeError`. -/
def utf7Decode (bs : List Nat) : Option String :=
  (utf7Aux (bs.length + 1) bs .direct).map fun l => (⟨l⟩ : String)

/- ## The HAR data model (`akita_har.models`), as used by the source -/

namespace har

/-- `akita_har.models.Record`: a name/value pair. -/
structure Record where
  name : String
  value : String
  deriving Repr, DecidableEq

/-- `akita_har.models.PostData` (the fields the source populates). -/
structure PostData where
  mimeType : String
  text : String
  deriving Repr, DecidableEq

/-- `akita_har.models.Request` (the fields the source populates). -/
structure Request where
  method : String
  url : String
  httpVersion : String
  cookies : List Record
  headers : List Record
  queryString : List Record
  postData : Option PostData
  headersSize : Nat
  bodySize : Nat
  deriving Repr, DecidableEq

/-- `akita_har.models.ResponseContent`. -/
structure ResponseContent where
  size : Nat
  mimeType : String
  text : String
  deriving Repr, DecidableEq

/-- `akita_har.models.Response` (the fields the source populates). -/
structure Response where
  status : Nat
  statusText : String
  httpVersion : String
  cookies : List Record
  headers : List Record
  content : ResponseContent
  redirectURL : String
  headersSize : Nat
  bodySize : Nat
  deriving Repr, DecidableEq

/-- `akita_har.models.Cache()`: an opaque empty placeholder. -/
structure Cache where
  deriving Repr, DecidableEq

/-- `akita_har.models.Timings` (milliseconds, `send = receive = 0`). -/
structure Timings where
  send : ℚ
  wait : ℚ
  receive : ℚ
  deriving Repr, DecidableEq

/-- `akita_har.models.Entry`. -/
structure Entry where
  startedDateTime : PyDatetime
  time : ℚ
  request : Request
  response : Response
  cache : Cache
  timings : Timings
  deriving Repr, DecidableEq

end har

/- ## Views of the external `requests` objects -/

/-- The view of `request.prepare()` (a `requests.PreparedRequest`) that
`requests_to_har_entry` consumes: method, fully resolved URL, header
items (`prepared.headers`, a case-insensitive dict, or `None`), the encoded
body bytes (or `None`), and cookie name/value pairs. -/
structure PreparedRequest where
  method : String
  url : String
  headers : Option (List (String × String))
  body : Option (List Nat)
  cookies : List (String × String)
  deriving Repr, DecidableEq

/-- The view of a `requests.Response` the source consumes: status code,
reason phrase, header items (case-insensitive dict), decoded text body,
final URL, cookie name/value pairs. -/
structure PyResponse where
  status_code : Nat
  reason : String
  headers : List (String × String)
  text : String
  url : String
  cookies : List (String × String)
  deriving Repr, DecidableEq

/-- Lookup in a `CaseInsensitiveDict` built from the item list (keys are
case-insensitively unique in such a dict). -/
def lookupCI (hs : List (String × String)) (key : String) : Option String :=
  (hs.find? fun kv => pyLower kv.1 == pyLower key).map (·.2)

/- ## `requests_to_har_entry` -/

/-- Line 48: request headers enumerated into Records
(`[] if prepared.headers is None else [Record(k, v) for k, v in items]`). -/
def requestHeaderRecords (headers : Option (List (String × String))) : List har.Record :=
  match headers with
  | none => []
  | some hs => hs.map fun kv => har.Record.mk kv.1 kv.2

/-- Line 49/74: `'\n'.join(f'{k}: {v}' for ...)`. -/
def headerBlock (records : List har.Record) : String :=
  String.intercalate "\n" (records.map fun r => r.name ++ ": " ++ r.value)

/-- Line 50: `None if prepared.body is None else prepared.body.decode("utf-7")`;
a decode failure raises `UnicodeDecodeError`. -/
def decodeBody : Option (List Nat) → Except PyError (Option String)
  | none => .ok none
  | some bs =>
    match utf7Decode bs with
    | none => .error .unicodeDecodeError
    | some s => .ok (some s)

/-- Line 66: `None if not body else PostData(mimeType=prepared.headers['Content-Type'], text=body)`.
Indexing a missing key raises `KeyError`; indexing `None` raises `TypeError`. -/
def mkPostData (body : Option String) (headers : Option (List (String × String))) :
    Except PyError (Option har.PostData) :=
  match body with
  | none => .ok none
  | some s =>
    if s = "" then .ok none
    else
      match headers with
      | none => .error .typeError
      | some hs =>
        match lookupCI hs "Content-Type" with
        | none => .error (.keyError "Content-Type")
        | some ct => .ok (some ⟨ct, s⟩)

/-- Lines 45–98 of the source, given the URL split `u`, the decoded body and
the post data: assembles the `har.Entry`. -/
def mkEntry (now : Int) (start : PyDatetime) (req : PreparedRequest) (resp : PyResponse)
    (u : SplitResult) (body : Option String) (postData : Option har.PostData) : har.Entry :=
  let query_string :=
    ((parse_qs u.query).map fun kv => kv.2.map fun v => har.Record.mk kv.1 v).flatten
  let request_headers := requestHeaderRecords req.headers
  let har_entry_url : String := ⟨urlunsplitL u.scheme u.netloc u.path [] []⟩
  let response_content := resp.text
  let elapsed : ℚ := ((now - start.usec : Int) : ℚ) / 1000
  { startedDateTime := start
    time := elapsed
    request :=
      { method := req.method
        url := har_entry_url
        httpVersion := "HTTP/1.1"
        cookies := req.cookies.map fun kv => har.Record.mk kv.1 kv.2
        headers := request_headers
        queryString := query_string
        postData := postData
        headersSize := (headerBlock request_headers).utf8ByteSize
        bodySize := match body with | none => 0 | some s => s.length }
    response :=
      { status := resp.status_code
        statusText := resp.reason
        httpVersion := "HTTP/1.1"
        cookies := resp.cookies.map fun kv => har.Record.mk kv.1 kv.2
        headers := resp.headers.map fun kv => har.Record.mk kv.1 kv.2
        content :=
          { size := response_content.length
            mimeType := (lookupCI resp.headers "Content-Type").getD ""
            text := response_content }
        redirectURL := resp.url
        headersSize :=
          (headerBlock (resp.headers.map fun kv => har.Record.mk kv.1 kv.2)).utf8ByteSize
        bodySize := response_content.length }
    cache := {}
    timings := { send := 0, wait := elapsed, receive := 0 } }

/-- `requests_to_har_entry(start, request, response)` from the source.
`now` is the instant `datetime.now(timezone.utc)` reads at line 89; the
`request.prepare()` call is the external `requests` library and its result
is the `PreparedRequest` view passed here. -/
def requests_to_har_entry (now : Int) (start : PyDatetime) (request : PreparedRequest)
    (response : PyResponse) : Except PyError har.Entry :=
  if start.tzinfo = none then .error (.valueError "start datetime must be timezone-aware")
  else
    match urlsplitE request.url "" with
    | .error e => .error e
    | .ok u =>
      match decodeBody request.body with
      | .error e => .error e
      | .ok body =>
        match mkPostData body request.headers with
        | .error e => .error e
        | .ok postData => .ok (mkEntry now start request response u body postData)

/- ## `urllib.parse.urljoin` (as used at line 134) -/

/-- `urllib.parse.uses_relative`. -/
def uses_relative : List String :=
  ["", "ftp", "http", "gopher", "nntp", "imap", "wais", "file", "https", "shttp",
   "mms", "prospero", "rtsp", "rtsps", "rtspu", "sftp", "svn", "svn+ssh", "ws", "wss"]

/-- `urllib.parse.uses_netloc`. -/
def uses_netloc : List String :=
  ["", "ftp", "http", "gopher", "nntp", "telnet", "imap", "wais", "file", "mms",
   "https", "shttp", "snews", "prospero", "rtsp", "rtsps", "rtspu", "rsync", "svn",
   "svn+ssh", "sftp", "nfs", "git", "git+ssh", "ws", "wss"]

/-- `segments[1:-1] = filter(None, segments[1:-1])`: drop empty segments,
keeping the first and last. -/
def filterMiddle (l : List String) : List String :=
  match l with
  | [] => []
  | [x] => [x]
  | x :: rest => x :: (rest.dropLast.filter (· ≠ "") ++ [rest.getLastD ""])

/-- `str.split('/')`. -/
def splitSlash (s : String) : List String :=
  (splitChar '/' s.data).map fun l => (⟨l⟩ : String)

/-- The path-merging part of `urljoin`: split base and relative paths on
`/`, merge, resolve `.` and `..` segments. -/
def joinPath (bpath upath : String) : String :=
  let base_parts := splitSlash bpath
  let base_parts := if base_parts.getLast? ≠ some "" then base_parts.dropLast else base_parts
  let segments :=
    if upath.data.head? = some '/' then splitSlash upath
    else filterMiddle (base_parts ++ splitSlash upath)
  let resolved := segments.foldl
    (fun acc seg =>
      if seg = ".." then acc.dropLast
      else if seg = "." then acc
      else acc ++ [seg]) ([] : List String)
  let resolved :=
    if segments.getLast? = some "." ∨ segments.getLast? = some ".." then resolved ++ [""]
    else resolved
  let out := String.intercalate "/" resolved
  if out = "" then "/" else out

/-- `urllib.parse.urljoin(base, url)` (with `allow_fragments=True`);
`params` components are not modelled separately (they stay part of the
path). -/
def urljoin (base url : String) : Except PyError String :=
  if base = "" then .ok url
  else if url = "" then .ok base
  else
    match urlsplitE base "" with
    | .error e => .error e
    | .ok b =>
      match urlsplitE url ⟨b.scheme⟩ with
      | .error e => .error e
      | .ok u =>
        if ¬(u.scheme = b.scheme ∧ (⟨u.scheme⟩ : String) ∈ uses_relative) then .ok url
        else
          let inNetloc := (⟨u.scheme⟩ : String) ∈ uses_netloc
          if inNetloc ∧ u.netloc ≠ [] then
            .ok ⟨urlunsplitL u.scheme u.netloc u.path u.query u.fragment⟩
          else
            let netloc := if inNetloc then b.netloc else u.netloc
            if u.path = [] then
              let query := if u.query = [] then b.query else u.query
              .ok ⟨urlunsplitL u.scheme netloc b.path query u.fragment⟩
            else
              let path := joinPath ⟨b.path⟩ ⟨u.path⟩
              .ok ⟨urlunsplitL u.scheme netloc path.data u.query u.fragment⟩

/- ## `TestClient` (lines 101–168)

The wrapper delegates the actual exchange to the superclass
(`fastapi.testclient.TestClient`, default base URL `http://testserver`);
that external collaborator is modelled as a script of pending responses in
the client state, consumed one per call.  The `HarWriter` sink is modelled
as the list of entries appended so far. -/

/-- The state of a recording `TestClient`: configured base URL, the entries
appended to the HAR sink so far, and the scripted responses of the external
server. -/
structure ClientState where
  base_url : String
  entries : List har.Entry
  pending : List PyResponse
  deriving Repr, DecidableEq

/-- `TestClient.request` (lines 112–164): build the `requests.Request`
(method uppercased, URL joined against the base URL), record `start`,
delegate the exchange, convert to a HAR entry, append it to the sink and
return the response unchanged.  `startUsec`/`nowUsec` are the two clock
readings (line 144 and line 89). -/
def TestClient.request (startUsec nowUsec : Int) (s : ClientState) (method url : String)
    (headers : Option (List (String × String))) (body : Option (List Nat))
    (cookies : List (String × String)) : Except PyError (ClientState × PyResponse) :=
  match urljoin s.base_url url with
  | .error e => .error e
  | .ok fullUrl =>
    let req : PreparedRequest :=
      { method := pyUpper method
        url := fullUrl
        headers := some (headers.getD [])
        body := body
        cookies := cookies }
    let start : PyDatetime := ⟨startUsec, some 0⟩
    match s.pending with
    | [] => .error .connectionError
    | resp :: rest =>
      match requests_to_har_entry nowUsec start req resp with
      | .error e => .error e
      | .ok entry => .ok ({ s with entries := s.entries ++ [entry], pending := rest }, resp)

/- ## Helper lemmas -/

theorem mkString_ne_empty {l : List Char} (h : l ≠ []) : (⟨l⟩ : String) ≠ "" := by
  intro hc
  exact h (congrArg String.data hc)

/-- A fuelled UTF-8 decode of a nonempty byte list is nonempty. -/
theorem utf8DecodeReplaceAux_cons (fuel : Nat) (b : Nat) (rest : List Nat) :
    utf8DecodeReplaceAux (fuel + 1) (b :: rest) ≠ [] := by
  simp [utf8DecodeReplaceAux]

/-- `unquote` of a nonempty character list is nonempty. -/
theorem unquoteAux_ne_nil (fuel : Nat) (c : Char) (rest : List Char) :
    unquoteAux (fuel + 1) (c :: rest) ≠ [] := by
  rw [unquoteAux]
  split
  · split
    · rename_i b bs r _
      intro hc
      rcases List.append_eq_nil.mp hc with ⟨h1, -⟩
      exact utf8DecodeReplaceAux_cons bs.length b bs (by simpa using h1)
    · simp
  · simp

/-- `unquote_plus` of a nonempty character list is a nonempty string. -/
theorem unquotePlus_ne_nil {l : List Char} (h : l ≠ []) : unquotePlus l ≠ [] := by
  match l with
  | c :: rest =>
    show unquoteL (plusToSpace (c :: rest)) ≠ []
    rw [plusToSpace, List.map_cons]
    exact unquoteAux_ne_nil _ _ _

/-- Every value produced by `parse_qsl` is a nonempty string. -/
theorem parse_qsl_value_ne_empty {qs : List Char} {kv : String × String}
    (h : kv ∈ parse_qsl qs) : kv.2 ≠ "" := by
  rw [parse_qsl] at h
  rw [List.mem_flatten] at h
  obtain ⟨inner, hinner, hkv⟩ := h
  rw [List.mem_map] at hinner
  obtain ⟨seg, -, rfl⟩ := hinner
  split at hkv
  · simp at hkv
  · split at hkv
    · simp at hkv
    · split at hkv
      · simp at hkv
      · rename_i v hv
        rw [List.mem_singleton] at hkv
        subst hkv
        exact mkString_ne_empty (unquotePlus_ne_nil hv)

/-- `insertQs` preserves a predicate on stored values, given it for the new
value. -/
theorem insertQs_values (P : String → Prop) :
    ∀ (m : List (String × List String)) (k v : String),
      (∀ p ∈ m, ∀ w ∈ p.2, P w) → P v →
      ∀ p ∈ insertQs m k v, ∀ w ∈ p.2, P w := by
  intro m k v hm hv
  induction m with
  | nil =>
    intro p hp w hw
    rw [insertQs, List.mem_singleton] at hp
    subst hp
    rw [List.mem_singleton] at hw
    subst hw
    exact hv
  | cons hd tl ih =>
    intro p hp w hw
    obtain ⟨k', vs⟩ := hd
    rw [insertQs] at hp
    split at hp
    · rcases List.mem_cons.mp hp with h | h
      · subst h
        rcases List.mem_append.mp hw with h' | h'
        · exact hm (k', vs) (List.mem_cons_self _ _) w h'
        · rw [List.mem_singleton] at h'
          subst h'
          exact hv
      · exact hm p (List.mem_cons_of_mem _ h) w hw
    · rcases List.mem_cons.mp hp with h | h
      · subst h
        exact hm (k', vs) (List.mem_cons_self _ _) w hw
      · exact ih (fun q hq => hm q (List.mem_cons_of_mem _ hq)) p h w hw

/-- Values surviving the `parse_qs` dictionary fold satisfy any predicate
satisfied by the `parse_qsl` values. -/
theorem parse_qs_fold_values (P : String → Prop) :
    ∀ (l : List (String × String)) (m : List (String × List String)),
      (∀ kv ∈ l, P kv.2) → (∀ p ∈ m, ∀ w ∈ p.2, P w) →
      ∀ p ∈ l.foldl (fun m kv => insertQs m kv.1 kv.2) m, ∀ w ∈ p.2, P w := by
  intro l
  induction l with
  | nil => intro m _ hm; simpa using hm
  | cons hd tl ih =>
    intro m hl hm
    rw [List.foldl_cons]
    exact ih _ (fun kv hkv => hl kv (List.mem_cons_of_mem _ hkv))
      (insertQs_values P m hd.1 hd.2 hm (hl hd (List.mem_cons_self _ _)))

/-- Every value stored by `parse_qs` is a nonempty string. -/
theorem parse_qs_value_ne_empty {qs : List Char} {p : String × List String}
    (hp : p ∈ parse_qs qs) {w : String} (hw : w ∈ p.2) : w ≠ "" := by
  exact parse_qs_fold_values (fun w => w ≠ "") (parse_qsl qs) []
    (fun kv hkv => parse_qsl_value_ne_empty hkv) (by simp) p hp w hw

/-- `asciiLower` maps scheme characters to scheme characters. -/
theorem isSchemeChar_asciiLower {c : Char} (h : isSchemeChar c = true) :
    isSchemeChar (asciiLower c) = true := by
  unfold asciiLower
  split <;> first | decide | exact h

/-- Scheme characters are neither `?` nor `#`. -/
theorem isSchemeChar_ne {c : Char} (h : isSchemeChar c = true) : c ≠ '?' ∧ c ≠ '#' := by
  constructor <;> rintro rfl <;> simp [isSchemeChar] at h

/-- Characters of the scheme produced by `schemeSplit` either come from the
default scheme or are (lowercased) scheme characters. -/
theorem schemeSplit_chars {l d : List Char} {c : Char} (h : c ∈ (schemeSplit l d).1) :
    c ∈ d ∨ isSchemeChar c = true := by
  rw [schemeSplit] at h
  split at h
  · exact Or.inl h
  · split at h
    · rename_i hcond
      right
      simp only [List.mem_map] at h
      obtain ⟨c', hc', rfl⟩ := h
      exact isSchemeChar_asciiLower (by
        have := hcond.2.2
        rw [List.all_eq_true] at this
        exact this c' hc')
    · exact Or.inl h

/-- The netloc produced by `netlocSplit` contains no `/`, `?` or `#`. -/
theorem netlocSplit_chars {l nl rest : List Char} (h : netlocSplit l = .ok (nl, rest))
    {c : Char} (hc : c ∈ nl) : c ≠ '/' ∧ c ≠ '?' ∧ c ≠ '#' := by
  rw [netlocSplit] at h
  split at h
  · dsimp only at h
    split at h
    · cases h
    · injection h with h'
      rw [Prod.mk.injEq] at h'
      have := List.mem_takeWhile_imp (h'.1 ▸ hc)
      simpa using this
  · injection h with h'
    rw [Prod.mk.injEq] at h'
    rw [← h'.1] at hc
    simp at hc

/-- The first component of `splitAtChar c` contains no `c` and is a subset
of the input. -/
theorem splitAtChar_fst_chars {c : Char} {l : List Char} {x : Char}
    (h : x ∈ (splitAtChar c l).1) : x ≠ c ∧ x ∈ l := by
  rw [splitAtChar] at h
  exact ⟨by simpa using List.mem_takeWhile_imp h, (List.takeWhile_sublist _).subset h⟩

/-- Components of a successful `urlsplit`: the scheme is made of default or
scheme characters, and netloc and path contain neither `?` nor `#`. -/
theorem urlsplitL_chars {url d : List Char} {u : SplitResult}
    (h : urlsplitL url d = .ok u) :
    (∀ c ∈ u.scheme, c ∈ d ∨ isSchemeChar c = true) ∧
    (∀ c ∈ u.netloc, c ≠ '?' ∧ c ≠ '#') ∧
    (∀ c ∈ u.path, c ≠ '?' ∧ c ≠ '#') := by
  rw [urlsplitL] at h
  split at h
  · cases h
  · rename_i nl rest hnl
    injection h with h'
    subst h'
    refine ⟨fun c hc => schemeSplit_chars hc, fun c hc => ?_, fun c hc => ?_⟩
    · have := netlocSplit_chars hnl hc
      exact ⟨this.2.1, this.2.2⟩
    · have h1 := splitAtChar_fst_chars hc
      have h2 := splitAtChar_fst_chars h1.2
      exact ⟨h1.1, h2.1⟩

/-- The URL re-assembled by `urlunparse` with cleared query and fragment
contains neither `?` nor `#`, provided its components do not. -/
theorem urlunsplitL_no_query_fragment {scheme netloc path : List Char}
    (hs : ∀ c ∈ scheme, c ∈ ([] : List Char) ∨ isSchemeChar c = true)
    (hn : ∀ c ∈ netloc, c ≠ '?' ∧ c ≠ '#')
    (hp : ∀ c ∈ path, c ≠ '?' ∧ c ≠ '#') :
    ∀ c ∈ urlunsplitL scheme netloc path [] [], c ≠ '?' ∧ c ≠ '#' := by
  intro c hc
  have hs' : ∀ c ∈ scheme, c ≠ '?' ∧ c ≠ '#' := by
    intro c hc
    rcases hs c hc with h | h
    · simp at h
    · exact isSchemeChar_ne h
  simp only [urlunsplitL, ne_eq, not_true_eq_false, if_false, ite_false] at hc
  split at hc
  · -- url = scheme ++ ':' :: (netloc part)
    rcases List.mem_append.mp hc with h | h
    · exact hs' c h
    · rcases List.mem_cons.mp h with h | h
      · subst h; decide
      · split at h
        · rcases List.mem_cons.mp h with h | h
          · subst h; decide
          · rcases List.mem_cons.mp h with h | h
            · subst h; decide
            · rcases List.mem_append.mp h with h | h
              · exact hn c h
              · split at h
                · rcases List.mem_cons.mp h with h | h
                  · subst h; decide
                  · exact hp c h
                · exact hp c h
        · exact hp c h
  · split at hc
    · rcases List.mem_cons.mp hc with h | h
      · subst h; decide
      · rcases List.mem_cons.mp h with h | h
        · subst h; decide
        · rcases List.mem_append.mp h with h | h
          · exact hn c h
          · split at h
            · rcases List.mem_cons.mp h with h | h
              · subst h; decide
              · exact hp c h
            · exact hp c h
    · exact hp c hc

/-- Inversion of a successful `requests_to_har_entry` run. -/
theorem requests_to_har_entry_ok {now : Int} {start : PyDatetime} {req : PreparedRequest}
    {resp : PyResponse} {e : har.Entry}
    (h : requests_to_har_entry now start req resp = .ok e) :
    start.tzinfo ≠ none ∧
    ∃ u body postData, urlsplitE req.url "" = .ok u ∧ decodeBody req.body = .ok body ∧
      mkPostData body req.headers = .ok postData ∧
      e = mkEntry now start req resp u body postData := by
  rw [requests_to_har_entry] at h
  split at h
  · cases h
  · rename_i hne
    refine ⟨hne, ?_⟩
    split at h
    · cases h
    · split at h
      · cases h
      · split at h
        · cases h
        · injection h with h'
          refine ⟨_, _, _, ?_, ?_, ?_, h'.symm⟩ <;> assumption

theorem mkEntry_queryString (now : Int) (start : PyDatetime) (req : PreparedRequest)
    (resp : PyResponse) (u : SplitResult) (body : Option String) (pd : Option har.PostData) :
    (mkEntry now start req resp u body pd).request.queryString =
      ((parse_qs u.query).map fun kv => kv.2.map fun v => har.Record.mk kv.1 v).flatten := rfl

theorem mkEntry_url (now : Int) (start : PyDatetime) (req : PreparedRequest)
    (resp : PyResponse) (u : SplitResult) (body : Option String) (pd : Option har.PostData) :
    (mkEntry now start req resp u body pd).request.url =
      (⟨urlunsplitL u.scheme u.netloc u.path [] []⟩ : String) := rfl

theorem mkEntry_startedDateTime (now : Int) (start : PyDatetime) (req : PreparedRequest)
    (resp : PyResponse) (u : SplitResult) (body : Option String) (pd : Option har.PostData) :
    (mkEntry now start req resp u body pd).startedDateTime = start := rfl

/- ## Claims -/

/-- A default entry (used only to name computed entries in witnesses). -/
def emptyEntry : har.Entry :=
  { startedDateTime := ⟨0, none⟩
    time := 0
    request := ⟨"", "", "", [], [], [], none, 0, 0⟩
    response := ⟨0, "", "", [], [], ⟨0, "", ""⟩, "", 0, 0⟩
    cache := {}
    timings := ⟨0, 0, 0⟩ }

/-- C1: for every request whose URL has query string `?a=1&a=2&b=3`, the
built Entry's `request.queryString` equals the Records
`(a,1), (a,2), (b,3)`, and `request.url` contains no `?` and no `#`. -/
theorem C1_query_string_and_url (now : Int) (start : PyDatetime) (req : PreparedRequest)
    (resp : PyResponse) (u : SplitResult) (e : har.Entry)
    (hu : urlsplitE req.url "" = .ok u) (hq : u.query = "a=1&a=2&b=3".data)
    (he : requests_to_har_entry now start req resp = .ok e) :
    e.request.queryString =
      [har.Record.mk "a" "1", har.Record.mk "a" "2", har.Record.mk "b" "3"] ∧
    '?' ∉ e.request.url.data ∧ '#' ∉ e.request.url.data := by
  obtain ⟨-, u', body, pd, hu', hb, hpd, rfl⟩ := requests_to_har_entry_ok he
  rw [hu] at hu'
  injection hu' with h'
  subst h'
  have hchars := urlsplitL_chars hu
  have hnoqf := urlunsplitL_no_query_fragment hchars.1 hchars.2.1 hchars.2.2
  refine ⟨?_, ?_, ?_⟩
  · rw [mkEntry_queryString, hq]
    decide
  · rw [mkEntry_url]
    intro hmem
    exact (hnoqf '?' hmem).1 rfl
  · rw [mkEntry_url]
    intro hmem
    exact (hnoqf '#' hmem).2 rfl

def c1req : PreparedRequest :=
  ⟨"GET", "http://example.com/p?a=1&a=2&b=3", some [], none, []⟩

def c1resp : PyResponse := ⟨200, "OK", [], "", "http://example.com/p", []⟩

/-- An aware start instant (UTC). -/
def t0 : PyDatetime := ⟨0, some 0⟩

def c1split : SplitResult := (urlsplitE c1req.url "").toOption.getD ⟨[], [], [], [], []⟩

def c1entry : har.Entry :=
  (requests_to_har_entry 0 t0 c1req c1resp).toOption.getD emptyEntry

/-- Witness for C1 at a concrete request. -/
theorem C1_witness :
    c1entry.request.queryString =
      [har.Record.mk "a" "1", har.Record.mk "a" "2", har.Record.mk "b" "3"] ∧
    '?' ∉ c1entry.request.url.data ∧ '#' ∉ c1entry.request.url.data :=
  C1_query_string_and_url 0 t0 c1req c1resp c1split c1entry (by rfl) (by decide) (by rfl)

/-- C10: every Record in a built Entry's `request.queryString` has a
non-empty value (parameters with empty values are omitted by
`parse_qs`). -/
theorem C10_no_empty_query_values (now : Int) (start : PyDatetime) (req : PreparedRequest)
    (resp : PyResponse) (e : har.Entry)
    (he : requests_to_har_entry now start req resp = .ok e) :
    ∀ r ∈ e.request.queryString, r.value ≠ "" := by
  obtain ⟨-, u, body, pd, -, -, -, rfl⟩ := requests_to_har_entry_ok he
  rw [mkEntry_queryString]
  intro r hr
  rw [List.mem_flatten] at hr
  obtain ⟨inner, hinner, hrmem⟩ := hr
  rw [List.mem_map] at hinner
  obtain ⟨kv, hkv, rfl⟩ := hinner
  rw [List.mem_map] at hrmem
  obtain ⟨v, hv, rfl⟩ := hrmem
  exact parse_qs_value_ne_empty hkv hv

def c10req : PreparedRequest := ⟨"GET", "http://example.com/p?a=&b=1", some [], none, []⟩

def c10resp : PyResponse := ⟨200, "OK", [], "", "http://example.com/p", []⟩

def c10entry : har.Entry :=
  (requests_to_har_entry 0 t0 c10req c10resp).toOption.getD emptyEntry

/-- Witness for C10 at a concrete request with query `a=&b=1` (the
empty-valued `a` is dropped and the surviving Record's value is
non-empty). -/
theorem C10_witness : (har.Record.mk "b" "1").value ≠ "" :=
  C10_no_empty_query_values 0 t0 c10req c10resp c10entry (by rfl)
    (har.Record.mk "b" "1") (by decide)

/-- C9: in every built Entry, `response.bodySize` equals
`response.content.size`, and both equal the length of the decoded response
text. -/
theorem C9_response_sizes (now : Int) (start : PyDatetime) (req : PreparedRequest)
    (resp : PyResponse) (e : har.Entry)
    (he : requests_to_har_entry now start req resp = .ok e) :
    e.response.bodySize = e.response.content.size ∧
    e.response.content.size = resp.text.length := by
  obtain ⟨-, u, body, pd, -, -, -, rfl⟩ := requests_to_har_entry_ok he
  exact ⟨rfl, rfl⟩

def c9req : PreparedRequest := ⟨"GET", "http://example.com/x", some [], none, []⟩

def c9resp : PyResponse := ⟨200, "OK", [], "hello", "http://example.com/x", []⟩

def c9entry : har.Entry :=
  (requests_to_har_entry 0 t0 c9req c9resp).toOption.getD emptyEntry

/-- Witness for C9 at a concrete response with body `hello`. -/
theorem C9_witness :
    c9entry.response.bodySize = c9entry.response.content.size ∧
    c9entry.response.content.size = c9resp.text.length :=
  C9_response_sizes 0 t0 c9req c9resp c9entry (by rfl)

/-- C2: in every built Entry, `request.headersSize` is the UTF-8 byte
length of the newline-joined `"key: value"` request-header lines (headers
in their given order), and is 0 when there are no headers. -/
theorem C2_headersSize (now : Int) (start : PyDatetime) (req : PreparedRequest)
    (resp : PyResponse) (e : har.Entry)
    (he : requests_to_har_entry now start req resp = .ok e) :
    e.request.headersSize = (headerBlock (requestHeaderRecords req.headers)).utf8ByteSize ∧
    (req.headers = none ∨ req.headers = some [] → e.request.headersSize = 0) := by
  obtain ⟨-, u, body, pd, -, -, -, rfl⟩ := requests_to_har_entry_ok he
  refine ⟨rfl, ?_⟩
  rintro (h | h) <;>
    · show (headerBlock (requestHeaderRecords req.headers)).utf8ByteSize = 0
      rw [h]
      rfl

def c2req : PreparedRequest :=
  ⟨"GET", "http://example.com/x",
   some [("Host", "example.com"), ("Accept", "*/*")], none, []⟩

def c2resp : PyResponse := ⟨200, "OK", [], "", "http://example.com/x", []⟩

def c2entry : har.Entry :=
  (requests_to_har_entry 0 t0 c2req c2resp).toOption.getD emptyEntry

/-- Witness for C2 at a concrete request with two headers. -/
theorem C2_witness :
    c2entry.request.headersSize =
      (headerBlock (requestHeaderRecords c2req.headers)).utf8ByteSize ∧
    (c2req.headers = none ∨ c2req.headers = some [] → c2entry.request.headersSize = 0) :=
  C2_headersSize 0 t0 c2req c2resp c2entry (by rfl)

/-- The only error `netlocSplit` raises is `Invalid IPv6 URL`. -/
theorem netlocSplit_error {l : List Char} {e : PyError} (h : netlocSplit l = .error e) :
    e = .valueError "Invalid IPv6 URL" := by
  rw [netlocSplit] at h
  split at h
  · dsimp only at h
    split at h
    · injection h with h'
      exact h'.symm
    · cases h
  · cases h

/-- The only error `urlsplit` raises is `Invalid IPv6 URL`. -/
theorem urlsplitL_error {url d : List Char} {e : PyError} (h : urlsplitL url d = .error e) :
    e = .valueError "Invalid IPv6 URL" := by
  rw [urlsplitL] at h
  split at h
  · rename_i e' he'
    injection h with h'
    exact h' ▸ netlocSplit_error he'
  · cases h

/-- The only error `decodeBody` raises is a `UnicodeDecodeError`. -/
theorem decodeBody_error {b : Option (List Nat)} {e : PyError}
    (h : decodeBody b = .error e) : e = .unicodeDecodeError := by
  match b with
  | none => cases h
  | some bs =>
    rw [decodeBody] at h
    split at h
    · injection h with h'
      exact h'.symm
    · cases h

/-- The only errors `mkPostData` raises are a `TypeError` or a `KeyError`
on `Content-Type`. -/
theorem mkPostData_error {body : Option String} {headers : Option (List (String × String))}
    {e : PyError} (h : mkPostData body headers = .error e) :
    e = .typeError ∨ e = .keyError "Content-Type" := by
  match body with
  | none => cases h
  | some s =>
    simp only [mkPostData] at h
    split at h
    · cases h
    · split at h
      · injection h with h'
        exact Or.inl h'.symm
      · split at h
        · injection h with h'
          exact Or.inr h'.symm
        · cases h

/-- C4: the builder fails with the `InvalidTimestamp` `ValueError` (before
any entry is built) exactly when the start instant is naive; a
timezone-aware start never raises this error. -/
theorem C4_naive_start_rejected (now : Int) (start : PyDatetime) (req : PreparedRequest)
    (resp : PyResponse) :
    requests_to_har_entry now start req resp =
      .error (.valueError "start datetime must be timezone-aware") ↔
    start.tzinfo = none := by
  constructor
  · intro h
    by_contra hn
    rw [requests_to_har_entry, if_neg hn] at h
    split at h
    · rename_i e1 he1
      injection h with h'
      have h2 := urlsplitL_error he1
      rw [h2] at h'
      exact absurd (by injection h') (by decide)
    · split at h
      · rename_i e1 he1
        injection h with h'
        have h2 := decodeBody_error he1
        rw [h2] at h'
        cases h'
      · split at h
        · rename_i e1 he1
          injection h with h'
          rcases mkPostData_error he1 with h2 | h2 <;> rw [h2] at h' <;> cases h'
        · cases h
  · intro h
    rw [requests_to_har_entry, if_pos h]

theorem mkEntry_postData (now : Int) (start : PyDatetime) (req : PreparedRequest)
    (resp : PyResponse) (u : SplitResult) (body : Option String) (pd : Option har.PostData) :
    (mkEntry now start req resp u body pd).request.postData = pd := rfl

theorem mkEntry_bodySize (now : Int) (start : PyDatetime) (req : PreparedRequest)
    (resp : PyResponse) (u : SplitResult) (body : Option String) (pd : Option har.PostData) :
    (mkEntry now start req resp u body pd).request.bodySize =
      match body with | none => 0 | some s => s.length := rfl

/-- C3 (amended): without a body, `postData` is absent and `bodySize` is 0;
with an encoded body, `bodySize` is the length (in code points) of its
UTF-7 decoding, and `postData.text`, when present, is that decoding — not
the original bytes. -/
theorem C3_body_fields (now : Int) (start : PyDatetime) (req : PreparedRequest)
    (resp : PyResponse) (e : har.Entry)
    (he : requests_to_har_entry now start req resp = .ok e) :
    (req.body = none → e.request.postData = none ∧ e.request.bodySize = 0) ∧
    (∀ bs, req.body = some bs →
      ∃ s, utf7Decode bs = some s ∧ e.request.bodySize = s.length ∧
        ∀ pd, e.request.postData = some pd → pd.text = s) := by
  obtain ⟨-, u, body, pd, hu, hb, hpd, rfl⟩ := requests_to_har_entry_ok he
  constructor
  · intro h
    rw [h] at hb
    rw [decodeBody] at hb
    injection hb with h'
    subst h'
    simp only [mkPostData] at hpd
    injection hpd with h''
    subst h''
    exact ⟨mkEntry_postData .., mkEntry_bodySize ..⟩
  · intro bs hbs
    rw [hbs] at hb
    rw [decodeBody] at hb
    split at hb
    · cases hb
    · rename_i s hs
      injection hb with h'
      subst h'
      refine ⟨s, hs, mkEntry_bodySize .., ?_⟩
      intro pd' hpd'
      rw [mkEntry_postData] at hpd'
      subst hpd'
      simp only [mkPostData] at hpd
      split at hpd
      · cases hpd
      · split at hpd
        · cases hpd
        · split at hpd
          · cases hpd
          · injection hpd with h''
            injection h'' with h3
            rw [← h3]

def c3req : PreparedRequest :=
  ⟨"POST", "http://example.com/x", some [("Content-Type", "text/plain")],
   some [43, 65, 71, 69, 45], []⟩

def c3resp : PyResponse := ⟨200, "OK", [], "", "http://example.com/x", []⟩

/-- C3 counterexample: the request body is the 5 bytes `+AGE-`; the
recorded `bodySize` is 1 (the length of the UTF-7 decoding `a`), not 5,
and `postData.text` is `a`, not the original body. -/
theorem C3_counterexample :
    c3req.body = some [43, 65, 71, 69, 45] ∧
    List.length [43, 65, 71, 69, 45] = 5 ∧
    ((requests_to_har_entry 0 t0 c3req c3resp).toOption.map
      fun e => e.request.bodySize) = some 1 ∧
    ((requests_to_har_entry 0 t0 c3req c3resp).toOption.map
      fun e => e.request.postData) = some (some ⟨"text/plain", "a"⟩) ∧
    (1 : Nat) ≠ 5 :=
  ⟨rfl, rfl, rfl, rfl, by decide⟩

def c3entry : har.Entry :=
  (requests_to_har_entry 0 t0 c3req c3resp).toOption.getD emptyEntry

/-- Witness for the amended C3 at the concrete body `+AGE-`. -/
theorem C3_witness :
    utf7Decode [43, 65, 71, 69, 45] = some "a" ∧ c3entry.request.bodySize = "a".length := by
  obtain ⟨s, hs, hlen, -⟩ :=
    (C3_body_fields 0 t0 c3req c3resp c3entry (by rfl)).2 [43, 65, 71, 69, 45] rfl
  have h' : some "a" = some s :=
    (by rfl : utf7Decode [43, 65, 71, 69, 45] = some "a").symm.trans hs
  injection h' with h''
  exact ⟨hs.trans (congrArg some h''.symm), h'' ▸ hlen⟩

/-- C5 (amended): `postData` is present iff the request body's UTF-7
decoding is a non-empty text (a body decoding to the empty string — e.g.
the single byte `+` — yields no `postData`); when present, its `mimeType`
is the request's `Content-Type` header value at build time. -/
theorem C5_postData_presence (now : Int) (start : PyDatetime) (req : PreparedRequest)
    (resp : PyResponse) (e : har.Entry)
    (he : requests_to_har_entry now start req resp = .ok e) :
    (e.request.postData ≠ none ↔
      ∃ bs s, req.body = some bs ∧ utf7Decode bs = some s ∧ s ≠ "") ∧
    (∀ pd, e.request.postData = some pd →
      ∃ hs, req.headers = some hs ∧ lookupCI hs "Content-Type" = some pd.mimeType) := by
  obtain ⟨-, u, body, pd, hu, hb, hpd, rfl⟩ := requests_to_har_entry_ok he
  rw [mkEntry_postData]
  match hbody : req.body with
  | none =>
    rw [hbody, decodeBody] at hb
    injection hb with h'
    subst h'
    simp only [mkPostData] at hpd
    injection hpd with h''
    subst h''
    refine ⟨by simp, ?_⟩
    intro pd hpd'
    cases hpd'
  | some bs =>
    rw [hbody, decodeBody] at hb
    split at hb
    · cases hb
    · rename_i s hs
      injection hb with h'
      subst h'
      simp only [mkPostData] at hpd
      split at hpd
      · rename_i hse
        subst hse
        injection hpd with h''
        subst h''
        constructor
        · simp only [ne_eq, not_true_eq_false, false_iff]
          rintro ⟨bs', s', hbs', hs', hne⟩
          injection hbs' with h2
          subst h2
          rw [hs] at hs'
          injection hs' with h3
          exact hne h3.symm
        · intro pd hpd'
          cases hpd'
      · rename_i hne
        split at hpd
        · cases hpd
        · split at hpd
          · cases hpd
          · rename_i h0 hsl hheq h1 ct hct
            injection hpd with h''
            subst h''
            constructor
            · simp only [ne_eq, reduceCtorEq, not_false_eq_true, true_iff]
              exact ⟨bs, s, rfl, hs, hne⟩
            · intro pd hpd'
              injection hpd' with h3
              subst h3
              exact ⟨hsl, hheq, hct⟩

def c5req : PreparedRequest :=
  ⟨"POST", "http://example.com/x", some [("Content-Type", "text/plain")], some [43], []⟩

def c5resp : PyResponse := ⟨200, "OK", [], "", "http://example.com/x", []⟩

/-- C5 counterexample: the single byte `+` is a non-empty encoded body,
yet the built Entry has no `postData` (the byte decodes to the empty
string under UTF-7). -/
theorem C5_counterexample :
    c5req.body = some [43] ∧ ([43] : List Nat) ≠ [] ∧
    ((requests_to_har_entry 0 t0 c5req c5resp).toOption.map
      fun e => e.request.postData) = some none :=
  ⟨rfl, by decide, rfl⟩

def c5wreq : PreparedRequest :=
  ⟨"POST", "http://example.com/x", some [("Content-Type", "text/plain")], some [97], []⟩

def c5wentry : har.Entry :=
  (requests_to_har_entry 0 t0 c5wreq c5resp).toOption.getD emptyEntry

/-- Witness for the amended C5: a body decoding to the non-empty text `a`
yields a present `postData`. -/
theorem C5_witness : c5wentry.request.postData ≠ none :=
  ((C5_postData_presence 0 t0 c5wreq c5resp c5wentry (by rfl)).1).mpr
    ⟨[97], "a", rfl, rfl, by decide⟩

/-- Inversion of a successful recorded `TestClient.request`: the response
is the one obtained from the delegated exchange (consumed from the script),
exactly one entry is appended to the sink, and its `startedDateTime` is the
recorded start instant. -/
theorem TestClient_request_ok {startUsec nowUsec : Int} {s : ClientState}
    {method url : String} {headers : Option (List (String × String))}
    {body : Option (List Nat)} {cookies : List (String × String)}
    {s' : ClientState} {resp : PyResponse}
    (h : TestClient.request startUsec nowUsec s method url headers body cookies =
      .ok (s', resp)) :
    ∃ entry, s.pending = resp :: s'.pending ∧ s'.entries = s.entries ++ [entry] ∧
      s'.base_url = s.base_url ∧ entry.startedDateTime = ⟨startUsec, some 0⟩ := by
  rw [TestClient.request] at h
  split at h
  · cases h
  · dsimp only at h
    split at h
    · cases h
    · rename_i resp0 rest hpend
      split at h
      · cases h
      · rename_i entry hentry
        injection h with h'
        rw [Prod.mk.injEq] at h'
        obtain ⟨hs', hresp⟩ := h'
        subst hresp
        subst hs'
        refine ⟨entry, hpend, rfl, rfl, ?_⟩
        obtain ⟨-, u, b, pd, -, -, -, rfl⟩ := requests_to_har_entry_ok hentry
        exact mkEntry_startedDateTime ..

/-- C7: a successful `request` returns the delegated response unchanged
(it is exactly the next scripted response, consumed once — no retry) and
appends exactly one Entry to the sink. -/
theorem C7_transparent_recording (startUsec nowUsec : Int) (s : ClientState)
    (method url : String) (headers : Option (List (String × String)))
    (body : Option (List Nat)) (cookies : List (String × String))
    (s' : ClientState) (resp : PyResponse)
    (h : TestClient.request startUsec nowUsec s method url headers body cookies =
      .ok (s', resp)) :
    s.pending = resp :: s'.pending ∧ ∃ e, s'.entries = s.entries ++ [e] := by
  obtain ⟨entry, h1, h2, -, -⟩ := TestClient_request_ok h
  exact ⟨h1, entry, h2⟩

def c7resp : PyResponse := ⟨200, "OK", [], "pong", "http://testserver/ping", []⟩

def c7state : ClientState := ⟨"http://testserver", [], [c7resp]⟩

def c7result : Except PyError (ClientState × PyResponse) :=
  TestClient.request 0 1000 c7state "GET" "/ping" none none []

def c7state' : ClientState :=
  (c7result.toOption.map Prod.fst).getD ⟨"", [], []⟩

/-- Witness for C7 at a concrete call. -/
theorem C7_witness :
    c7state.pending = c7resp :: c7state'.pending ∧
    ∃ e, c7state'.entries = c7state.entries ++ [e] :=
  C7_transparent_recording 0 1000 c7state "GET" "/ping" none none [] c7state' c7resp (by rfl)

/-- C8: two sequential successful `request` calls append exactly two
Entries to the sink, in call order, and the second `startedDateTime` is
not earlier than the first whenever the clock is monotone across the two
calls. -/
theorem C8_sequential_entries (t1 t2 t3 t4 : Int) (s s1 s2 : ClientState)
    (m1 u1 m2 u2 : String) (hd1 hd2 : Option (List (String × String)))
    (bd1 bd2 : Option (List Nat)) (ck1 ck2 : List (String × String))
    (r1 r2 : PyResponse)
    (hc1 : TestClient.request t1 t2 s m1 u1 hd1 bd1 ck1 = .ok (s1, r1))
    (hc2 : TestClient.request t3 t4 s1 m2 u2 hd2 bd2 ck2 = .ok (s2, r2))
    (hle : t1 ≤ t3) :
    ∃ e1 e2, s2.entries = s.entries ++ [e1, e2] ∧
      e1.startedDateTime.usec ≤ e2.startedDateTime.usec := by
  obtain ⟨e1, -, he1, -, ht1⟩ := TestClient_request_ok hc1
  obtain ⟨e2, -, he2, -, ht2⟩ := TestClient_request_ok hc2
  refine ⟨e1, e2, ?_, ?_⟩
  · rw [he2, he1, List.append_assoc]
    rfl
  · rw [ht1, ht2]
    exact hle

def c8resp1 : PyResponse := ⟨200, "OK", [], "one", "http://testserver/a", []⟩

def c8resp2 : PyResponse := ⟨200, "OK", [], "two", "http://testserver/b", []⟩

def c8state : ClientState := ⟨"http://testserver", [], [c8resp1, c8resp2]⟩

def c8state1 : ClientState :=
  ((TestClient.request 0 1000 c8state "GET" "/a" none none []).toOption.map Prod.fst).getD
    ⟨"", [], []⟩

def c8state2 : ClientState :=
  ((TestClient.request 2000 3000 c8state1 "GET" "/b" none none []).toOption.map Prod.fst).getD
    ⟨"", [], []⟩

/-- Witness for C8 at two concrete sequential calls. -/
theorem C8_witness :
    ∃ e1 e2, c8state2.entries = c8state.entries ++ [e1, e2] ∧
      e1.startedDateTime.usec ≤ e2.startedDateTime.usec :=
  C8_sequential_entries 0 1000 2000 3000 c8state c8state1 c8state2 "GET" "/a" "GET" "/b"
    none none none none [] [] c8resp1 c8resp2 (by rfl) (by rfl) (by decide)

/- ## C6: the concrete scenario -/

def c6resp : PyResponse :=
  ⟨200, "OK", [("Content-Type", "application/json")], "\x7b\"ok\":true\x7d",
   "http://testserver/items", []⟩

def c6state : ClientState := ⟨"http://testserver", [], [c6resp]⟩

def c6result : Except PyError (ClientState × PyResponse) :=
  TestClient.request 0 5000 c6state "GET" "/items?x=1" none none []

def c6entries : List har.Entry :=
  match c6result with
  | .ok (st, _) => st.entries
  | .error _ => []

/-- C6 counterexample: in the concrete scenario the recorded
`response.content.text` is `{"ok":true}` — 11 code points — so
`response.content.size` is 11, not 12 as the claim states. -/
theorem C6_counterexample :
    (c6entries.map fun e => e.response.content.text) = ["\x7b\"ok\":true\x7d"] ∧
    (c6entries.map fun e => e.response.content.size) = [11] ∧
    (c6entries.map fun e => e.response.content.size) ≠ [12] :=
  ⟨rfl, rfl, by decide⟩

/-- C6 (amended): executing GET on `/items?x=1` against a server answering
200 / `application/json` / `{"ok":true}` records exactly one Entry with
method `GET`, url `http://testserver/items` (no query), queryString
`[(x,1)]`, status 200, content text `{"ok":true}` and content size 11. -/
theorem C6_get_items_scenario :
    (c6entries.map fun e =>
      (e.request.method, e.request.url, e.request.queryString,
       e.response.status, e.response.content.text, e.response.content.size)) =
    [("GET", "http://testserver/items", [har.Record.mk "x" "1"], 200,
      "\x7b\"ok\":true\x7d", 11)] :=
  rfl
